import Mathlib

/-!
Verification development for the httpcloak repository.

Shallow embedding of the parts of the code the claims concern:
* the `fingerprint` package's request-context and header-coherence logic
  (`GenerateSecFetchHeaders`, `HeaderCoherence.ApplyToHeaders`),
* the `session` package's `SessionState` serialization record,
* the `proxy` package's SOCKS5 UDP header build/parse pair,
* the per-address dial-budget division of the transport dialers,
* the `transport` package's `SpeculativeConn` wrapper (speculative TLS over
  HTTP CONNECT): its `Write` interception and its `Read` path that strips the
  proxy's HTTP response.

Bytes are modelled as natural numbers (one per byte), byte strings as
`List Nat`, and the underlying network connection as the list of byte chunks
its successive `Read` calls deliver, plus a log of the `Write` calls issued
to it.
-/

/-- Bytes of a Lean string, one natural number per character (all strings used
here are ASCII, matching Go byte strings). -/
def strBytes (s : String) : List Nat := s.toList.map Char.toNat

/-! ## fingerprint package: request contexts and header coherence -/

/-- `FetchModeNavigate` from the source (`FetchMode` is a string type in Go). -/
def FetchModeNavigate : String := "navigate"

/-- `FetchModeCORS` from the source. -/
def FetchModeCORS : String := "cors"

/-- `FetchModeNoCORS` from the source. -/
def FetchModeNoCORS : String := "no-cors"

/-- `FetchModeSameOrigin` from the source. -/
def FetchModeSameOrigin : String := "same-origin"

/-- `FetchModeWebSocket` from the source. -/
def FetchModeWebSocket : String := "websocket"

/-- `FetchDestImage` from the source. -/
def FetchDestImage : String := "image"

/-- `FetchDestStyle` from the source. -/
def FetchDestStyle : String := "style"

/-- `FetchDestScript` from the source. -/
def FetchDestScript : String := "script"

/-- `RequestContext` from the source (`fingerprint` package). Mode, Dest and
Site are string-valued in Go; they stay strings here. -/
structure RequestContext where
  Mode : String
  Dest : String
  Site : String
  IsUserTriggered : Bool
  Referrer : String
  TargetURL : String
deriving Repr, DecidableEq

/-- `SecFetchHeaders` from the source. -/
structure SecFetchHeaders where
  Site : String
  Mode : String
  Dest : String
  User : String
deriving Repr, DecidableEq

/-- `GenerateSecFetchHeaders` from the source: `User` is `"?1"` exactly when
the request is user-triggered and the mode is `navigate`, else empty. -/
def GenerateSecFetchHeaders (ctx : RequestContext) : SecFetchHeaders :=
  { Site := ctx.Site
    Mode := ctx.Mode
    Dest := ctx.Dest
    User := if ctx.IsUserTriggered ∧ ctx.Mode = FetchModeNavigate then "?1" else "" }

/-- A Go `map[string]string` of headers, modelled as an association list with
at most one binding per key maintained by `hset`/`hdel`. -/
def Headers := List (String × String)

/-- Deletion from the header map (Go `delete(headers, k)`). -/
def hdel (m : Headers) (k : String) : Headers :=
  m.filter (fun p => p.1 != k)

/-- Insertion into the header map (Go `headers[k] = v`). -/
def hset (m : Headers) (k v : String) : Headers :=
  (k, v) :: hdel m k

/-- Lookup in the header map (Go `headers[k]`, with `none` for a missing key). -/
def hlookup (m : Headers) (k : String) : Option String :=
  (m.find? (fun p => p.1 == k)).map (fun p => p.2)

/-- The `Accept` value the source sets for `FetchModeNavigate`. -/
def navigateAccept : String :=
  "text/html,application/xhtml+xml,application/xml;q=0.9,image/avif,image/webp,image/apng,*/*;q=0.8,application/signed-exchange;v=b3;q=0.7"

/-- The `Accept` value the source sets for `no-cors` image loads. -/
def imageAccept : String :=
  "image/avif,image/webp,image/apng,image/svg+xml,image/*,*/*;q=0.8"

/-- The `Accept` value the source sets for `no-cors` stylesheet loads. -/
def styleAccept : String := "text/css,*/*;q=0.1"

/-- The `switch ctx.Mode` block of `HeaderCoherence.ApplyToHeaders` from the
source: `navigate` sets `Upgrade-Insecure-Requests` and the navigation
`Accept`; `cors`/`same-origin` and `no-cors` set an `Accept` and delete
`Upgrade-Insecure-Requests` and `Cache-Control`; any other mode (for example
`websocket`) matches no case and leaves the map untouched. -/
def applyContextHeaders (m : Headers) (ctx : RequestContext) : Headers :=
  if ctx.Mode = FetchModeNavigate then
    hset (hset m "Upgrade-Insecure-Requests" "1") "Accept" navigateAccept
  else if ctx.Mode = FetchModeCORS ∨ ctx.Mode = FetchModeSameOrigin then
    hdel (hdel (hset m "Accept" "*/*") "Upgrade-Insecure-Requests") "Cache-Control"
  else if ctx.Mode = FetchModeNoCORS then
    hdel (hdel (hset m "Accept"
        (if ctx.Dest = FetchDestImage then imageAccept
         else if ctx.Dest = FetchDestStyle then styleAccept
         else "*/*"))
      "Upgrade-Insecure-Requests") "Cache-Control"
  else m

/-- The `Sec-Fetch-*` block of `HeaderCoherence.ApplyToHeaders` from the
source: sets the three `Sec-Fetch-{Site,Mode,Dest}` headers, then sets
`Sec-Fetch-User` when `GenerateSecFetchHeaders` produced a value for it and
deletes it otherwise. -/
def applySecFetch (m : Headers) (ctx : RequestContext) : Headers :=
  let secFetch := GenerateSecFetchHeaders ctx
  let m3 := hset (hset (hset m "Sec-Fetch-Site" secFetch.Site)
      "Sec-Fetch-Mode" secFetch.Mode) "Sec-Fetch-Dest" secFetch.Dest
  if secFetch.User ≠ "" then hset m3 "Sec-Fetch-User" secFetch.User
  else hdel m3 "Sec-Fetch-User"

/-- `HeaderCoherence.ApplyToHeaders` from the source: the `Sec-Fetch-*` block,
then the mode-specific block, then `Referer` when the context has a
referrer. -/
def ApplyToHeaders (m : Headers) (ctx : RequestContext) : Headers :=
  let m5 := applyContextHeaders (applySecFetch m ctx) ctx
  if ctx.Referrer ≠ "" then hset m5 "Referer" ctx.Referrer else m5

/-! ## session package: the serialized session state -/

/-- `CookieState` from the source (`session` package). Times are opaque
naturals. -/
structure CookieState where
  Domain : String
  Path : String
  Name : String
  Value : String
  Expires : Option Nat
  Secure : Bool
  HttpOnly : Bool
deriving Repr, DecidableEq

/-- Modelled from the spec: `transport.TLSSessionState` is referenced by the
`SessionState` struct but its definition is not under `src/`; the spec's TLS
session ticket record carries the preset name, the protocol, the opaque
ticket blob, the max-early-data allowance and the absolute expiry. -/
structure TLSSessionState where
  PresetName : String
  Protocol : String
  Ticket : List Nat
  MaxEarlyData : Nat
  Expiry : Nat
deriving Repr, DecidableEq

/-- Modelled from the spec: `protocol.SessionConfig` is referenced by the
`SessionState` struct but is not under `src/`; per the spec the persisted
configuration carries the preset name and the forced-protocol flag (the
saved blob exposes `force_http3`). -/
structure SessionConfig where
  Preset : String
  ForceHTTP3 : Bool
deriving Repr, DecidableEq

/-- `SessionStateVersion` from the source. -/
def SessionStateVersion : Nat := 4

/-- `SessionState` from the source (`src/session/state.go`): the complete
saveable session state. Its fields are exactly the format version, the two
timestamps, the session configuration, the cookie list, the TLS session
records keyed by origin, and the ECH configs keyed by domain. It has no
field for arbiter hints. -/
structure SessionState where
  Version : Nat
  CreatedAt : Nat
  UpdatedAt : Nat
  Config : SessionConfig
  Cookies : List CookieState
  TLSSessions : List (String × TLSSessionState)
  ECHConfigs : List (String × String)
deriving Repr, DecidableEq

/-- Modelled from the spec: the arbiter hint kept per origin — last-known-good
protocol and the H3-cooldown marker. -/
structure ArbiterHint where
  LastGoodProtocol : String
  H3Cooldown : Bool
deriving Repr, DecidableEq

/-- Modelled from the spec: the live session runtime owning the cookie jar,
ticket cache, ECH configs, configuration and the arbiter-hint map. -/
structure Session where
  Config : SessionConfig
  Cookies : List CookieState
  TLSSessions : List (String × TLSSessionState)
  ECHConfigs : List (String × String)
  ArbiterHints : List (String × ArbiterHint)
  CreatedAt : Nat
deriving Repr, DecidableEq

/-- Modelled from the spec: `session.save` serializes the session into a
`SessionState` blob. The blob's shape is the `SessionState` struct from
`src/session/state.go`, which has a field for each of the configuration, the
cookies, the TLS sessions and the ECH configs — and none for arbiter hints,
so the hint map cannot be stored. -/
def saveSession (now : Nat) (s : Session) : SessionState :=
  { Version := SessionStateVersion
    CreatedAt := s.CreatedAt
    UpdatedAt := now
    Config := s.Config
    Cookies := s.Cookies
    TLSSessions := s.TLSSessions
    ECHConfigs := s.ECHConfigs }

/-- Modelled from the spec: `load` checks the blob's version and rebuilds a
session from the blob's fields. The blob has no arbiter-hint field, so the
rebuilt session starts with an empty hint map. -/
def loadSession (st : SessionState) : Except String Session :=
  if st.Version ≠ SessionStateVersion then .error "unsupported session state version"
  else .ok
    { Config := st.Config
      Cookies := st.Cookies
      TLSSessions := st.TLSSessions
      ECHConfigs := st.ECHConfigs
      ArbiterHints := []
      CreatedAt := st.CreatedAt }

/-- Whether the session's hint map marks `origin` as being in H3 cooldown. -/
def hintMarksH3Cooldown (s : Session) (origin : String) : Bool :=
  match s.ArbiterHints.find? (fun p => p.1 == origin) with
  | some p => p.2.H3Cooldown
  | none => false

/-- The same session with its arbiter-hint map erased. -/
def eraseHints (s : Session) : Session := { s with ArbiterHints := [] }

/-- A concrete session whose hint map marks `example.com` as in H3 cooldown. -/
def cooldownSession : Session :=
  { Config := { Preset := "chrome-143", ForceHTTP3 := false }
    Cookies := []
    TLSSessions := []
    ECHConfigs := []
    ArbiterHints := [("example.com", { LastGoodProtocol := "h2", H3Cooldown := true })]
    CreatedAt := 0 }

/-! ## proxy package: SOCKS5 UDP header -/

/-- An IP address: 4 bytes (IPv4) or 16 bytes (IPv6). -/
inductive IPAddr where
  | v4 (a b c d : Nat)
  | v6 (bytes : List Nat)
deriving Repr, DecidableEq

/-- `net.UDPAddr`: an IP address and a port. -/
structure UDPAddr where
  IP : IPAddr
  Port : Nat
deriving Repr, DecidableEq

/-- Modelled from the spec: `buildSOCKS5UDPHeader` is exercised by
`src/unnamed/part_004` but its body is not under `src/`. Per the spec the
outgoing datagram header is `RSV(2) FRAG(1) ATYP(1) DSTADDR(var) DSTPORT(2)`,
with ATYP 1 for IPv4 and 4 for IPv6 and the port big-endian. -/
def buildSOCKS5UDPHeader (addr : UDPAddr) : List Nat :=
  match addr.IP with
  | .v4 a b c d => [0, 0, 0, 1, a, b, c, d, addr.Port / 256, addr.Port % 256]
  | .v6 bs => [0, 0, 0, 4] ++ bs ++ [addr.Port / 256, addr.Port % 256]

/-- Modelled from the spec: `parseSOCKS5UDPHeader` is exercised by
`src/unnamed/part_004` but its body is not under `src/`. It refuses FRAG ≠ 0
and returns the header length (the payload offset) and the parsed address.
The ATYP 3 (domain) branch performs DNS resolution, which is I/O outside this
model; headers built by `buildSOCKS5UDPHeader` always use ATYP 1 or 4. -/
def parseSOCKS5UDPHeader (packet : List Nat) : Except String (Nat × UDPAddr) :=
  match packet with
  | _ :: _ :: frag :: atyp :: rest =>
    if frag ≠ 0 then .error "fragmented UDP packets not supported"
    else if atyp = 1 then
      match rest with
      | a :: b :: c :: d :: ph :: pl :: _ =>
        .ok (10, { IP := .v4 a b c d, Port := ph * 256 + pl })
      | _ => .error "packet too small"
    else if atyp = 4 then
      match rest.drop 16 with
      | ph :: pl :: _ =>
        .ok (22, { IP := .v6 (rest.take 16), Port := ph * 256 + pl })
      | _ => .error "packet too small"
    else .error "unsupported address type"
  | _ => .error "packet too small"

/-- Validity of a UDP address as bytes: port fits 16 bits and the IP bytes
fit 8 bits (IPv6 addresses have exactly 16 bytes). -/
def validUDPAddr (addr : UDPAddr) : Prop :=
  addr.Port < 65536 ∧
    match addr.IP with
    | .v4 a b c d => a < 256 ∧ b < 256 ∧ c < 256 ∧ d < 256
    | .v6 bs => bs.length = 16 ∧ ∀ x ∈ bs, x < 256

instance (addr : UDPAddr) : Decidable (validUDPAddr addr) := by
  unfold validUDPAddr
  cases addr.IP <;> exact inferInstance

/-! ## transport dialers: per-address dial budget -/

/-- Ten seconds in nanoseconds (Go `time.Duration` units). -/
def tenSecondsNs : Nat := 10000000000

/-- Modelled from the spec: the per-address dial timeout of the shared dial
prelude, `min(remaining_budget / remaining_addrs, 10s)`; `dialFirstSuccessful`
itself is not under `src/`, only its tests are. -/
def perAddrTimeout (remainingBudget remainingAddrs : Nat) : Nat :=
  min (remainingBudget / remainingAddrs) tenSecondsNs

/-- Modelled from the spec: the number of dial attempts performed when every
address exhausts its per-address budget — the loop walks the address list,
gives each address `perAddrTimeout` of the remaining budget, and stops early
only when the overall budget is gone. -/
def exhaustedDialAttempts : Nat → Nat → Nat
  | 0, _ => 0
  | k + 1, budget =>
    if budget = 0 then 0
    else 1 + exhaustedDialAttempts k (budget - perAddrTimeout budget (k + 1))

/-! ## transport package: SpeculativeConn -/

/-- `SpeculativeTLSError` from the source, without the wrapped Go error value:
the operation tag (`"write"`, `"read"`, `"parse"`, `"status"`) and the HTTP
status code (0 when unset). -/
structure SpeculativeTLSError where
  Op : String
  StatusCode : Nat
deriving Repr, DecidableEq

/-- Outcome of a failed read on the wrapper: a `SpeculativeTLSError` (the
source wraps read/parse/status failures in one), a plain end-of-stream from
the underlying connection (Go `io.EOF`, passed through unwrapped after the
HTTP response is done), or fuel exhaustion of the embedding (never reached:
every recursive step of the source consumes input, see `stripFuel`). -/
inductive ReadErr where
  | spec (e : SpeculativeTLSError)
  | eof
  | outOfFuel
deriving Repr, DecidableEq

/-- The terminator `\r\n\r\n` the source searches for. -/
def crlfcrlf : List Nat := [13, 10, 13, 10]

/-- The line terminator `\r\n`. -/
def crlf : List Nat := [13, 10]

/-- First index at which `pat` occurs as a contiguous sublist of the data
(`bytes.Index`), `none` when it does not occur. -/
def findSub (pat : List Nat) : List Nat → Option Nat
  | [] => if pat.isPrefixOf ([] : List Nat) then some 0 else none
  | b :: rest =>
    if pat.isPrefixOf (b :: rest) then some 0
    else (findSub pat rest).map (· + 1)

/-- Whether a byte is an ASCII digit. -/
def isDigitByte (b : Nat) : Bool := 48 ≤ b && b ≤ 57

/-- Numeric value of a digit byte string. -/
def digitsVal (l : List Nat) : Nat := l.foldl (fun acc d => acc * 10 + (d - 48)) 0

/-- The bytes of `"HTTP/"`. -/
def httpSlashBytes : List Nat := strBytes "HTTP/"

/-- Modelled from the spec: the status-line validation performed by the
vendored `http.ReadResponse` (the fork is not under `src/`). The first line
is cut at the first space into the protocol and the status; the protocol must
be an `HTTP/` version; the status code is the first space-separated token of
the status (after trimming leading spaces) and must be exactly three digits.
Header-field syntax beyond the status line is not needed by the claims and is
not modelled. -/
def parseResponseStatus (data : List Nat) : Option Nat :=
  match findSub crlf data with
  | none => none
  | some i =>
    let line := data.take i
    let proto := line.takeWhile (fun b => b != 32)
    let rest := (line.dropWhile (fun b => b != 32)).drop 1
    if proto.length = line.length then none
    else if httpSlashBytes.isPrefixOf proto then
      let status := rest.dropWhile (fun b => b == 32)
      let code := status.takeWhile (fun b => b != 32)
      if code.length = 3 ∧ code.all isDigitByte then some (digitsVal code) else none
    else none

/-- One `Read` on the underlying connection with a buffer of capacity `cap`:
the connection's pending bytes are the chunks its successive reads deliver;
a read takes up to `cap` bytes of the front chunk and leaves the rest of
that chunk pending (TCP stream semantics); an empty chunk list is
end-of-stream. -/
def connRead (cap : Nat) : List (List Nat) → Option (List Nat × List (List Nat))
  | [] => none
  | c :: rest =>
    some (c.take cap, if c.drop cap = [] then rest else c.drop cap :: rest)

/-- `SpeculativeConn` from the source. The wrapped `net.Conn` is modelled by
`connChunks` (the byte chunks its successive reads deliver) and `connWrites`
(the log of write calls issued to it). -/
structure SpeculativeConn where
  connectRequest : List Nat
  firstWrite : Bool
  httpResponseDone : Bool
  readBuffer : List Nat
  headerBuffer : List Nat
  connChunks : List (List Nat)
  connWrites : List (List Nat)
deriving Repr, DecidableEq

/-- `NewSpeculativeConn` from the source: fresh wrapper around a connection. -/
def NewSpeculativeConn (connectRequest : List Nat) (chunks : List (List Nat)) :
    SpeculativeConn :=
  { connectRequest := connectRequest
    firstWrite := false
    httpResponseDone := false
    readBuffer := []
    headerBuffer := []
    connChunks := chunks
    connWrites := [] }

/-- A `SpeculativeConn` whose first write already happened (the tests set
`sc.firstWrite = true` to skip write interception). -/
def freshReadConn (connectRequest : List Nat) (chunks : List (List Nat)) :
    SpeculativeConn :=
  { NewSpeculativeConn connectRequest chunks with firstWrite := true }

/-- `SpeculativeConn.Write` from the source: the first write sends
`connectRequest ++ b` as a single write to the underlying connection and
reports `len b`; every later write passes `b` through unchanged. -/
def SpeculativeConn.write (c : SpeculativeConn) (b : List Nat) :
    Nat × SpeculativeConn :=
  if c.firstWrite = false then
    (b.length, { c with firstWrite := true
                        connWrites := c.connWrites ++ [c.connectRequest ++ b] })
  else
    (b.length, { c with connWrites := c.connWrites ++ [b] })

/-- `readAndStripHTTPResponse` from the source, with two embedding artifacts:
an explicit fuel argument (the source recursion terminates because every
underlying read consumes input), and a final `Nat` counting the recursive
self-calls performed (the source's `return c.readAndStripHTTPResponse(b)` in
the incomplete-header branch). One call reads up to 8192 bytes, appends them
to `headerBuffer`, and looks for `\r\n\r\n`: if absent it errors with
`"parse"` past 16384 accumulated bytes and otherwise recurses; if present it
validates the status line (non-200 is a `"status"` error), marks the HTTP
response done, resets the header buffer, and returns the bytes after the
terminator — buffering whatever exceeds `cap` — or, when no bytes follow,
performs a direct read of the underlying connection. -/
def SpeculativeConn.readAndStripHTTPResponse :
    Nat → Nat → SpeculativeConn → Except ReadErr (List Nat × SpeculativeConn × Nat)
  | 0, _, _ => .error .outOfFuel
  | fuel + 1, cap, c =>
    match connRead 8192 c.connChunks with
    | none => .error (.spec { Op := "read", StatusCode := 0 })
    | some (chunk, rest) =>
      let hb := c.headerBuffer ++ chunk
      let c1 := { c with headerBuffer := hb, connChunks := rest }
      match findSub crlfcrlf hb with
      | none =>
        if hb.length > 16384 then .error (.spec { Op := "parse", StatusCode := 0 })
        else
          (SpeculativeConn.readAndStripHTTPResponse fuel cap c1).map
            (fun r => (r.1, r.2.1, r.2.2 + 1))
      | some headerEnd =>
        match parseResponseStatus (hb.take (headerEnd + 4)) with
        | none => .error (.spec { Op := "parse", StatusCode := 0 })
        | some code =>
          if code ≠ 200 then .error (.spec { Op := "status", StatusCode := code })
          else
            let tlsData := hb.drop (headerEnd + 4)
            let c2 := { c1 with httpResponseDone := true, headerBuffer := [] }
            if tlsData ≠ [] then
              .ok (tlsData.take cap, { c2 with readBuffer := tlsData.drop cap }, 0)
            else
              match connRead cap c2.connChunks with
              | none => .error .eof
              | some (out, rest2) => .ok (out, { c2 with connChunks := rest2 }, 0)

/-- Concatenation of the connection's pending chunks. -/
def flattenChunks (cs : List (List Nat)) : List Nat := cs.foldr (· ++ ·) []

/-- Fuel that always suffices for `readAndStripHTTPResponse`: every recursive
self-call consumes at least one chunk or one byte of the underlying
connection. -/
def stripFuel (c : SpeculativeConn) : Nat :=
  c.connChunks.length + (flattenChunks c.connChunks).length + 1

/-- `SpeculativeConn.Read` from the source: buffered TLS surplus is returned
first; until the HTTP response has been stripped, reads go through
`readAndStripHTTPResponse`; afterwards reads pass straight to the underlying
connection. -/
def SpeculativeConn.read (cap : Nat) (c : SpeculativeConn) :
    Except ReadErr (List Nat × SpeculativeConn) :=
  if c.readBuffer ≠ [] then
    .ok (c.readBuffer.take cap, { c with readBuffer := c.readBuffer.drop cap })
  else if c.httpResponseDone = false then
    (SpeculativeConn.readAndStripHTTPResponse (stripFuel c) cap c).map
      (fun r => (r.1, r.2.1))
  else
    match connRead cap c.connChunks with
    | none => .error .eof
    | some (out, rest) => .ok (out, { c with connChunks := rest })

/-- Successive `Read` calls with the given buffer capacities, collecting the
returned byte slices; stops at the first error. -/
def readMany (caps : List Nat) (c : SpeculativeConn) :
    List (List Nat) × SpeculativeConn :=
  match caps with
  | [] => ([], c)
  | cap :: rest =>
    match SpeculativeConn.read cap c with
    | .error _ => ([], c)
    | .ok (out, c1) =>
      let r := readMany rest c1
      (out :: r.1, r.2)

/-- The bytes still owed to the caller of `Read`: the buffered surplus
followed by whatever the underlying connection still holds. -/
def pendingBytes (c : SpeculativeConn) : List Nat :=
  c.readBuffer ++ flattenChunks c.connChunks

/-- The three-chunk delivery of a 200 response used to exhibit the recursive
accumulation of partial header reads (mirrors the `partial header across
multiple reads` test, with TLS bytes `16 03 03` after the terminator). -/
def splitResponseChunks : List (List Nat) :=
  [strBytes "HTTP/1.1 200 Co",
   strBytes "nnection established\r\n",
   strBytes "\r\n" ++ [22, 3, 3]]

/-- A speculative connection about to perform its first read on the
three-chunk delivery above. -/
def splitResponseConn : SpeculativeConn :=
  freshReadConn (strBytes "CONNECT example.com:443 HTTP/1.1\r\n\r\n")
    splitResponseChunks

/-- A request context for a WebSocket upgrade (mode `websocket`). -/
def websocketCtx : RequestContext :=
  { Mode := FetchModeWebSocket
    Dest := "empty"
    Site := "none"
    IsUserTriggered := false
    Referrer := ""
    TargetURL := "" }

/-- A request context for a user-triggered navigation. -/
def navigateCtx : RequestContext :=
  { Mode := FetchModeNavigate
    Dest := "document"
    Site := "none"
    IsUserTriggered := true
    Referrer := ""
    TargetURL := "" }

/-- A wrapper connection whose first write already happened. -/
def afterFirstWriteConn : SpeculativeConn :=
  (SpeculativeConn.write (NewSpeculativeConn [9] []) [1]).2

/-- The header block of the proxy's 407 response (everything before the final
`\r\n\r\n`), as in the non-200 test. -/
def proxy407Header : List Nat :=
  strBytes "HTTP/1.1 407 Proxy Authentication Required\r\nProxy-Authenticate: Basic"

/-- A 6000-byte chunk with no CR byte. -/
def overflowChunk : List Nat := List.replicate 6000 65

/-- Three such chunks: 18000 bytes with no `\r\n\r\n` terminator, exceeding
the 16 KiB header bound. -/
def overflowChunks : List (List Nat) := [overflowChunk, overflowChunk, overflowChunk]

/-- Header block of a plain 200 response. -/
def streamHdr : List Nat := strBytes "HTTP/1.1 200 OK"

/-- 100 TLS bytes arriving in the same underlying read as the response. -/
def streamT0 : List Nat := List.replicate 100 7

/-- A further underlying chunk arriving after the first read. -/
def streamMore : List (List Nat) := [[20, 3, 3, 0, 1]]

/-- Buffer capacities for draining the stream one byte at a time. -/
def streamCaps : List Nat := List.replicate 95 1

/-! ## Helper lemmas about the header map -/

theorem hlookup_hdel_ne {k k' : String} (m : Headers) (h : k' ≠ k) :
    hlookup (hdel m k) k' = hlookup m k' := by
  induction m with
  | nil => rfl
  | cons p rest ih =>
    by_cases hpk : p.1 = k
    · have hfil : hdel (p :: rest) k = hdel rest k := by
        simp [hdel, List.filter_cons, hpk]
      have h2 : (p.1 == k') = false := by
        rw [hpk]
        exact beq_eq_false_iff_ne.mpr (Ne.symm h)
      rw [hfil, ih]
      simp only [hlookup, List.find?, h2]
    · have hfil : hdel (p :: rest) k = p :: hdel rest k := by
        simp [hdel, List.filter_cons, hpk]
      rw [hfil]
      by_cases hpk' : p.1 = k'
      · have h2 : (p.1 == k') = true := by simp [hpk']
        simp only [hlookup, List.find?, h2]
      · have h2 : (p.1 == k') = false := by simp [hpk']
        simp only [hlookup, List.find?, h2] at ih ⊢
        exact ih

theorem hlookup_hdel_self (m : Headers) (k : String) :
    hlookup (hdel m k) k = none := by
  induction m with
  | nil => rfl
  | cons p rest ih =>
    by_cases hpk : p.1 = k
    · have hfil : hdel (p :: rest) k = hdel rest k := by
        simp [hdel, List.filter_cons, hpk]
      rw [hfil, ih]
    · have hfil : hdel (p :: rest) k = p :: hdel rest k := by
        simp [hdel, List.filter_cons, hpk]
      have h2 : (p.1 == k) = false := by simp [hpk]
      rw [hfil]
      simp only [hlookup, List.find?, h2] at ih ⊢
      exact ih

theorem hlookup_hset_self (m : Headers) (k v : String) :
    hlookup (hset m k v) k = some v := by
  simp [hlookup, hset, List.find?]

theorem hlookup_hset_ne {k k' : String} (m : Headers) (v : String) (h : k' ≠ k) :
    hlookup (hset m k v) k' = hlookup m k' := by
  have h2 : (k == k') = false := by simp; exact fun hc => (h hc.symm).elim
  simp only [hset, hlookup, List.find?, h2]
  exact hlookup_hdel_ne m h

theorem hlookup_applyContextHeaders_other (m : Headers) (ctx : RequestContext)
    {k : String} (h1 : k ≠ "Upgrade-Insecure-Requests") (h2 : k ≠ "Accept")
    (h3 : k ≠ "Cache-Control") :
    hlookup (applyContextHeaders m ctx) k = hlookup m k := by
  unfold applyContextHeaders
  split
  · rw [hlookup_hset_ne _ _ h2, hlookup_hset_ne _ _ h1]
  · split
    · rw [hlookup_hdel_ne _ h3, hlookup_hdel_ne _ h1, hlookup_hset_ne _ _ h2]
    · split
      · rw [hlookup_hdel_ne _ h3, hlookup_hdel_ne _ h1, hlookup_hset_ne _ _ h2]
      · rfl

theorem hlookup_applySecFetch_other (m : Headers) (ctx : RequestContext)
    {k : String} (h1 : k ≠ "Sec-Fetch-Site") (h2 : k ≠ "Sec-Fetch-Mode")
    (h3 : k ≠ "Sec-Fetch-Dest") (h4 : k ≠ "Sec-Fetch-User") :
    hlookup (applySecFetch m ctx) k = hlookup m k := by
  simp only [applySecFetch]
  split
  · rw [hlookup_hset_ne _ _ h4, hlookup_hset_ne _ _ h3, hlookup_hset_ne _ _ h2,
      hlookup_hset_ne _ _ h1]
  · rw [hlookup_hdel_ne _ h4, hlookup_hset_ne _ _ h3, hlookup_hset_ne _ _ h2,
      hlookup_hset_ne _ _ h1]

theorem hlookup_applySecFetch_user (m : Headers) (ctx : RequestContext) :
    hlookup (applySecFetch m ctx) "Sec-Fetch-User" =
      (if (GenerateSecFetchHeaders ctx).User ≠ "" then
        some (GenerateSecFetchHeaders ctx).User else none) := by
  simp only [applySecFetch]
  split
  · exact hlookup_hset_self _ _ _
  · exact hlookup_hdel_self _ _

theorem hlookup_ApplyToHeaders_user (m : Headers) (ctx : RequestContext) :
    hlookup (ApplyToHeaders m ctx) "Sec-Fetch-User" =
      (if (GenerateSecFetchHeaders ctx).User ≠ "" then
        some (GenerateSecFetchHeaders ctx).User else none) := by
  unfold ApplyToHeaders
  have hstep :
      hlookup (applyContextHeaders (applySecFetch m ctx) ctx) "Sec-Fetch-User" =
        hlookup (applySecFetch m ctx) "Sec-Fetch-User" :=
    hlookup_applyContextHeaders_other _ _ (by decide) (by decide) (by decide)
  split
  · rw [hlookup_hset_ne _ _ (by decide), hstep, hlookup_applySecFetch_user]
  · rw [hstep, hlookup_applySecFetch_user]

theorem hlookup_ApplyToHeaders_uir (m : Headers) (ctx : RequestContext) :
    hlookup (ApplyToHeaders m ctx) "Upgrade-Insecure-Requests" =
      hlookup (applyContextHeaders (applySecFetch m ctx) ctx)
        "Upgrade-Insecure-Requests" := by
  unfold ApplyToHeaders
  split
  · rw [hlookup_hset_ne _ _ (by decide)]
  · rfl

theorem hlookup_applySecFetch_uir (m : Headers) (ctx : RequestContext) :
    hlookup (applySecFetch m ctx) "Upgrade-Insecure-Requests" =
      hlookup m "Upgrade-Insecure-Requests" :=
  hlookup_applySecFetch_other _ _ (by decide) (by decide) (by decide) (by decide)

/-! ## C8: Sec-Fetch-User iff navigate and user-triggered -/

/-- C8: the generated `Sec-Fetch-User` value is `"?1"` exactly when the
context's mode is `navigate` and the request is user-triggered, and after
header coherence the `Sec-Fetch-User` header is present (with value `"?1"`)
in exactly that case and absent in every other context. -/
theorem secFetchUser_iff_navigate_user_triggered (m : Headers) (ctx : RequestContext) :
    (GenerateSecFetchHeaders ctx).User =
      (if ctx.IsUserTriggered ∧ ctx.Mode = FetchModeNavigate then "?1" else "")
    ∧ hlookup (ApplyToHeaders m ctx) "Sec-Fetch-User" =
      (if ctx.IsUserTriggered ∧ ctx.Mode = FetchModeNavigate then some "?1" else none) := by
  refine ⟨rfl, ?_⟩
  rw [hlookup_ApplyToHeaders_user]
  by_cases h : ctx.IsUserTriggered ∧ ctx.Mode = FetchModeNavigate
  · simp [GenerateSecFetchHeaders, h]
  · simp [GenerateSecFetchHeaders, h]

/-! ## C9: Upgrade-Insecure-Requests by mode -/

/-- C9 counterexample: with mode `websocket` (not `navigate`), an
`Upgrade-Insecure-Requests` header present in the input map survives header
coherence, so the header is not "present iff navigate". -/
theorem upgradeInsecureRequests_websocket_counterexample :
    hlookup (ApplyToHeaders [("Upgrade-Insecure-Requests", "1")] websocketCtx)
        "Upgrade-Insecure-Requests" = some "1"
    ∧ websocketCtx.Mode ≠ FetchModeNavigate := by
  exact ⟨rfl, by decide⟩

/-- C9 (amended): header coherence sets `Upgrade-Insecure-Requests` to `"1"`
when the mode is `navigate` and removes it when the mode is `cors`,
`same-origin` or `no-cors`; any other mode (such as `websocket`) matches no
case of the mode block, so the header is left exactly as it was in the input
map. -/
theorem upgradeInsecureRequests_mode_cases (m : Headers) (ctx : RequestContext) :
    (ctx.Mode = FetchModeNavigate →
      hlookup (ApplyToHeaders m ctx) "Upgrade-Insecure-Requests" = some "1")
    ∧ (ctx.Mode = FetchModeCORS ∨ ctx.Mode = FetchModeSameOrigin ∨
        ctx.Mode = FetchModeNoCORS →
      hlookup (ApplyToHeaders m ctx) "Upgrade-Insecure-Requests" = none)
    ∧ (ctx.Mode ≠ FetchModeNavigate → ctx.Mode ≠ FetchModeCORS →
        ctx.Mode ≠ FetchModeSameOrigin → ctx.Mode ≠ FetchModeNoCORS →
      hlookup (ApplyToHeaders m ctx) "Upgrade-Insecure-Requests" =
        hlookup m "Upgrade-Insecure-Requests") := by
  refine ⟨?_, ?_, ?_⟩
  · intro hnav
    rw [hlookup_ApplyToHeaders_uir]
    unfold applyContextHeaders
    rw [if_pos hnav, hlookup_hset_ne _ _ (by decide), hlookup_hset_self]
  · intro hmode
    rw [hlookup_ApplyToHeaders_uir]
    unfold applyContextHeaders
    rcases hmode with h | h | h
    · have hnav : ¬ ctx.Mode = FetchModeNavigate := by rw [h]; decide
      rw [if_neg hnav, if_pos (Or.inl h), hlookup_hdel_ne _ (by decide),
        hlookup_hdel_self]
    · have hnav : ¬ ctx.Mode = FetchModeNavigate := by rw [h]; decide
      rw [if_neg hnav, if_pos (Or.inr h), hlookup_hdel_ne _ (by decide),
        hlookup_hdel_self]
    · have hnav : ¬ ctx.Mode = FetchModeNavigate := by rw [h]; decide
      have hcs : ¬ (ctx.Mode = FetchModeCORS ∨ ctx.Mode = FetchModeSameOrigin) := by
        rw [h]; decide
      rw [if_neg hnav, if_neg hcs, if_pos h, hlookup_hdel_ne _ (by decide),
        hlookup_hdel_self]
  · intro h1 h2 h3 h4
    rw [hlookup_ApplyToHeaders_uir]
    unfold applyContextHeaders
    rw [if_neg h1, if_neg (by exact fun hc => hc.elim h2 h3), if_neg h4]
    exact hlookup_applySecFetch_uir m ctx

/-- C9 witness: instantiating the amended theorem at a user-triggered
navigation over an empty header map. -/
theorem upgradeInsecureRequests_mode_cases_witness :
    navigateCtx.Mode = FetchModeNavigate
    ∧ hlookup (ApplyToHeaders [] navigateCtx) "Upgrade-Insecure-Requests" = some "1" :=
  ⟨rfl, (upgradeInsecureRequests_mode_cases [] navigateCtx).1 rfl⟩

/-! ## C1: the session state blob has no arbiter-hint map -/

/-- C1 counterexample: a session whose hint map marks `example.com` as in H3
cooldown serializes to exactly the same `SessionState` blob as the same
session with its hint map erased (the struct has no field that could hold
the hints), and the loaded session no longer marks the origin as in
cooldown. -/
theorem sessionState_hint_roundtrip_counterexample :
    hintMarksH3Cooldown cooldownSession "example.com" = true
    ∧ saveSession 1 cooldownSession = saveSession 1 (eraseHints cooldownSession)
    ∧ (loadSession (saveSession 1 cooldownSession)).map
        (fun s => hintMarksH3Cooldown s "example.com") = .ok false := by
  exact ⟨rfl, rfl, rfl⟩

/-- C1 (amended): the serialized session state blob carries the format
version, the session configuration (preset and forced-protocol flag), the
cookie list, the TLS ticket records keyed by origin and the ECH config map —
but no arbiter-hint map, so a save followed by a load yields the session
with an empty hint map and everything else preserved. -/
theorem sessionState_roundtrip_drops_hints (now : Nat) (s : Session) :
    loadSession (saveSession now s) = .ok (eraseHints s) := by
  rfl

/-! ## C3: first Write prepends the CONNECT request -/

/-- C3: the first `Write` of `b` on a fresh speculative connection issues
exactly one write to the underlying connection, whose payload is the CONNECT
request followed by `b`, and reports `len b` bytes written; every subsequent
`Write` passes its bytes through unchanged (one underlying write with
payload exactly `b`, reporting `len b`). -/
theorem speculativeWrite_first_prepends_connect :
    (∀ (R b : List Nat) (chunks : List (List Nat)),
      SpeculativeConn.write (NewSpeculativeConn R chunks) b
        = (b.length, { NewSpeculativeConn R chunks with
                        firstWrite := true, connWrites := [R ++ b] }))
    ∧ (∀ (c : SpeculativeConn) (b : List Nat), c.firstWrite = true →
      SpeculativeConn.write c b
        = (b.length, { c with connWrites := c.connWrites ++ [b] })) := by
  constructor
  · intro R b chunks
    simp [SpeculativeConn.write, NewSpeculativeConn]
  · intro c b h
    simp [SpeculativeConn.write, h]

/-- C3 witness: the second conjunct applied to a connection whose first write
already happened. -/
theorem speculativeWrite_first_prepends_connect_witness :
    afterFirstWriteConn.firstWrite = true
    ∧ SpeculativeConn.write afterFirstWriteConn [2]
        = (1, { afterFirstWriteConn with
                  connWrites := afterFirstWriteConn.connWrites ++ [[2]] }) :=
  ⟨rfl, speculativeWrite_first_prepends_connect.2 afterFirstWriteConn [2] rfl⟩

/-! ## C2: the partial-header read path is recursive, not iterative -/

/-- C2: evaluating the embedded `readAndStripHTTPResponse` on a 200 response
delivered in three chunks. The read does validate, strip and return exactly
the TLS bytes after the terminator, but it reaches them through two recursive
self-calls (the final `Nat` of the instrumented result counts the source's
`return c.readAndStripHTTPResponse(b)` self-invocations): the accumulation
across partial reads is recursive, not iterative. -/
theorem speculativeRead_split_header_recursion_eval :
    (SpeculativeConn.readAndStripHTTPResponse (stripFuel splitResponseConn) 1024
        splitResponseConn).map (fun r => (r.1, r.2.2)) = .ok ([22, 3, 3], 2)
    ∧ (SpeculativeConn.read 1024 splitResponseConn).map (fun r => r.1)
        = .ok [22, 3, 3] := by
  exact ⟨rfl, rfl⟩

/-! ## C6: per-address dial budget division -/

/-- C6: with a 6-second budget across 3 addresses the first per-address
budget is 2 seconds (`min(6s/3, 10s)`), and for any positive budget a dial
in which every address exhausts its per-address allowance still attempts
every address: dividing the remaining budget by the remaining address count
never lets an early address starve the later ones. -/
theorem perAddrBudget_division_and_no_starvation :
    perAddrTimeout 6000000000 3 = 2000000000
    ∧ ∀ (n budget : Nat), 1 ≤ budget → exhaustedDialAttempts n budget = n := by
  refine ⟨by decide, ?_⟩
  intro n
  induction n with
  | zero => intro b _; rfl
  | succ k ih =>
    intro b hb
    unfold exhaustedDialAttempts
    rw [if_neg (by omega)]
    cases k with
    | zero => rfl
    | succ j =>
      have hdiv : b / (j + 1 + 1) < b := Nat.div_lt_self (by omega) (by omega)
      have hmin : perAddrTimeout b (j + 1 + 1) ≤ b / (j + 1 + 1) :=
        Nat.min_le_left _ _
      rw [ih (b - perAddrTimeout b (j + 1 + 1)) (by omega)]
      omega

/-- C6 witness: 6-second budget, 3 addresses — the per-address budget is 2
seconds and all 3 addresses are attempted, i.e. at least 2 further attempts
after the first address exhausts its budget. -/
theorem perAddrBudget_division_and_no_starvation_witness :
    (1 ≤ 6000000000)
    ∧ exhaustedDialAttempts 3 6000000000 = 3 :=
  ⟨by decide,
    perAddrBudget_division_and_no_starvation.2 3 6000000000 (by decide)⟩

/-! ## C7: SOCKS5 UDP header round-trip -/

/-- C7: building the SOCKS5 UDP header for any valid UDP address and parsing
the resulting packet back returns an offset equal to the header's length and
the same IP and port (so re-serializing the parsed address reproduces the
original header bytes); in particular for `1.2.3.4:443` the header is
`00 00 00 01 01 02 03 04 01 BB` and the parse returns offset 10 and the same
address. -/
theorem socks5UDPHeader_roundtrip :
    (∀ (addr : UDPAddr) (D : List Nat), validUDPAddr addr →
      parseSOCKS5UDPHeader (buildSOCKS5UDPHeader addr ++ D)
        = .ok ((buildSOCKS5UDPHeader addr).length, addr))
    ∧ buildSOCKS5UDPHeader { IP := .v4 1 2 3 4, Port := 443 }
        = [0x00, 0x00, 0x00, 0x01, 0x01, 0x02, 0x03, 0x04, 0x01, 0xBB]
    ∧ parseSOCKS5UDPHeader [0x00, 0x00, 0x00, 0x01, 0x01, 0x02, 0x03, 0x04, 0x01, 0xBB]
        = .ok (10, { IP := .v4 1 2 3 4, Port := 443 }) := by
  refine ⟨?_, rfl, rfl⟩
  intro addr D hv
  obtain ⟨hport, hip⟩ := hv
  obtain ⟨ip, port⟩ := addr
  cases ip with
  | v4 a b c d =>
    have hmod : port / 256 * 256 + port % 256 = port := by
      have := Nat.div_add_mod port 256
      omega
    simp [buildSOCKS5UDPHeader, parseSOCKS5UDPHeader, hmod]
  | v6 bs =>
    obtain ⟨hlen, _⟩ := hip
    have hmod : port / 256 * 256 + port % 256 = port := by
      have := Nat.div_add_mod port 256
      omega
    have hdrop : (bs ++ (port / 256 :: port % 256 :: D)).drop 16
        = port / 256 :: port % 256 :: D := by
      rw [← hlen]
      exact List.drop_left _ _
    have htake : (bs ++ (port / 256 :: port % 256 :: D)).take 16 = bs := by
      rw [← hlen]
      exact List.take_left _ _
    simp [buildSOCKS5UDPHeader, parseSOCKS5UDPHeader, hdrop, htake, hmod, hlen]

/-- C7 witness: the universal round-trip applied to `1.2.3.4:443` with a
payload. -/
theorem socks5UDPHeader_roundtrip_witness :
    validUDPAddr { IP := .v4 1 2 3 4, Port := 443 }
    ∧ parseSOCKS5UDPHeader
        (buildSOCKS5UDPHeader { IP := .v4 1 2 3 4, Port := 443 } ++ [72, 105])
        = .ok ((buildSOCKS5UDPHeader { IP := .v4 1 2 3 4, Port := 443 }).length,
            { IP := .v4 1 2 3 4, Port := 443 }) :=
  ⟨by decide,
    socks5UDPHeader_roundtrip.1 { IP := .v4 1 2 3 4, Port := 443 } [72, 105]
      (by decide)⟩

/-! ## SpeculativeConn read-path lemmas -/

theorem take_header (hdr T0 : List Nat) :
    (hdr ++ crlfcrlf ++ T0).take (hdr.length + 4) = hdr ++ crlfcrlf := by
  have h : (hdr ++ crlfcrlf).length = hdr.length + 4 := by simp [crlfcrlf]
  rw [← h, List.take_left]

theorem drop_header (hdr T0 : List Nat) :
    (hdr ++ crlfcrlf ++ T0).drop (hdr.length + 4) = T0 := by
  have h : (hdr ++ crlfcrlf).length = hdr.length + 4 := by simp [crlfcrlf]
  rw [← h, List.drop_left]

theorem readAndStrip_found (f cap : Nat) (c : SpeculativeConn)
    (hdr T0 : List Nat) (more : List (List Nat))
    (hc : c.connChunks = (hdr ++ crlfcrlf ++ T0) :: more)
    (hhb : c.headerBuffer = [])
    (hlen : (hdr ++ crlfcrlf ++ T0).length ≤ 8192)
    (hterm : findSub crlfcrlf (hdr ++ crlfcrlf ++ T0) = some hdr.length) :
    SpeculativeConn.readAndStripHTTPResponse (f + 1) cap c =
      match parseResponseStatus (hdr ++ crlfcrlf) with
      | none => .error (.spec { Op := "parse", StatusCode := 0 })
      | some code =>
        if code ≠ 200 then .error (.spec { Op := "status", StatusCode := code })
        else if T0 ≠ [] then
          .ok (T0.take cap,
            { c with headerBuffer := [], httpResponseDone := true,
                     connChunks := more, readBuffer := T0.drop cap }, 0)
        else
          match connRead cap more with
          | none => .error .eof
          | some (out, rest2) =>
            .ok (out, { c with headerBuffer := [], httpResponseDone := true,
                               connChunks := rest2 }, 0) := by
  have htake : (hdr ++ crlfcrlf ++ T0).take 8192 = hdr ++ crlfcrlf ++ T0 :=
    List.take_of_length_le hlen
  have hdrop : (hdr ++ crlfcrlf ++ T0).drop 8192 = [] :=
    List.drop_eq_nil_of_le hlen
  simp only [SpeculativeConn.readAndStripHTTPResponse, hc, connRead, htake, hdrop,
    if_pos rfl, hhb, List.nil_append, hterm, take_header, drop_header, eq_self_iff_true,
    if_true]

/-- C4: for a speculative connection whose underlying stream delivers a
complete HTTP response (header block `hdr`, terminated by the first
`\r\n\r\n`) whose status line parses to a status `s ≠ 200`, the first
`Read` returns a `SpeculativeTLSError` with `Op = "status"` and
`StatusCode = s`, and no TLS data is returned to the caller. -/
theorem speculativeRead_non200_status_error (R hdr T : List Nat)
    (more : List (List Nat)) (s cap : Nat)
    (hlen : (hdr ++ crlfcrlf ++ T).length ≤ 8192)
    (hterm : findSub crlfcrlf (hdr ++ crlfcrlf ++ T) = some hdr.length)
    (hparse : parseResponseStatus (hdr ++ crlfcrlf) = some s)
    (hs : s ≠ 200) :
    SpeculativeConn.read cap (freshReadConn R ((hdr ++ crlfcrlf ++ T) :: more))
      = .error (.spec { Op := "status", StatusCode := s }) := by
  set c := freshReadConn R ((hdr ++ crlfcrlf ++ T) :: more) with hcdef
  have h1 : c.readBuffer = [] := rfl
  have h2 : c.httpResponseDone = false := rfl
  have h3 : c.connChunks = (hdr ++ crlfcrlf ++ T) :: more := rfl
  have h4 : c.headerBuffer = [] := rfl
  obtain ⟨f, hf⟩ : ∃ f, stripFuel c = f + 1 := ⟨_, rfl⟩
  unfold SpeculativeConn.read
  rw [if_neg (by simp [h1]), if_pos h2, hf,
    readAndStrip_found f cap c hdr T more h3 h4 hlen hterm, hparse]
  simp [hs, Except.map]
/-- C4 witness: the theorem applied to the proxy's literal
`407 Proxy Authentication Required` response. -/
theorem speculativeRead_non200_status_error_witness :
    (proxy407Header ++ crlfcrlf ++ []).length ≤ 8192
    ∧ findSub crlfcrlf (proxy407Header ++ crlfcrlf ++ []) = some proxy407Header.length
    ∧ parseResponseStatus (proxy407Header ++ crlfcrlf) = some 407
    ∧ SpeculativeConn.read 1024 (freshReadConn [] ((proxy407Header ++ crlfcrlf ++ []) :: []))
        = .error (.spec { Op := "status", StatusCode := 407 }) :=
  ⟨by decide, by decide, by decide,
    speculativeRead_non200_status_error [] proxy407Header [] [] 407 1024
      (by decide) (by decide) (by decide) (by decide)⟩

theorem isPrefixOf_append_right (p : List Nat) :
    ∀ (x y : List Nat), p.isPrefixOf x = true → p.isPrefixOf (x ++ y) = true := by
  induction p with
  | nil => intro x y _; simp [List.isPrefixOf]
  | cons a p' ih =>
    intro x y h
    cases x with
    | nil => simp [List.isPrefixOf] at h
    | cons b x' =>
      simp only [List.cons_append, List.isPrefixOf_cons₂, Bool.and_eq_true] at h ⊢
      exact ⟨h.1, ih x' y h.2⟩

theorem findSub_append_none (pat : List Nat) :
    ∀ (x y : List Nat), findSub pat (x ++ y) = none → findSub pat x = none := by
  intro x
  induction x with
  | nil =>
    intro y h
    cases hp : pat with
    | nil =>
      rw [hp] at h
      cases y with
      | nil => simp [findSub, List.isPrefixOf] at h
      | cons b rest => simp [findSub, List.isPrefixOf] at h
    | cons a t => simp [findSub, hp, List.isPrefixOf]
  | cons b x' ih =>
    intro y h
    rw [List.cons_append] at h
    unfold findSub at h ⊢
    by_cases hp : pat.isPrefixOf (b :: (x' ++ y)) = true
    · rw [if_pos hp] at h
      simp at h
    · rw [if_neg hp] at h
      have h' : findSub pat (x' ++ y) = none := by
        rcases heq : findSub pat (x' ++ y) with _ | v
        · rfl
        · rw [heq] at h; simp at h
      have hpx : ¬ pat.isPrefixOf (b :: x') = true := by
        intro hcon
        exact hp (by
          rw [show b :: (x' ++ y) = (b :: x') ++ y from rfl]
          exact isPrefixOf_append_right pat (b :: x') y hcon)
      rw [if_neg hpx, ih y h']
      rfl

theorem findSub_head_notMem (a : Nat) (t : List Nat) :
    ∀ (l : List Nat), a ∉ l → findSub (a :: t) l = none := by
  intro l
  induction l with
  | nil => intro _; simp [findSub, List.isPrefixOf]
  | cons b l' ih =>
    intro h
    have hab : (a == b) = false := by
      simp only [beq_eq_false_iff_ne]
      intro hc
      exact h (by simp [hc])
    have hpre : (a :: t).isPrefixOf (b :: l') = false := by
      simp [List.isPrefixOf_cons₂, hab]
    unfold findSub
    rw [hpre]
    simp only [Bool.false_eq_true, if_false]
    rw [ih (fun hc => h (List.mem_cons_of_mem _ hc))]
    rfl

theorem readAndStrip_overflow (cap : Nat) (chunks : List (List Nat)) :
    ∀ (fuel : Nat) (c : SpeculativeConn),
    c.connChunks = chunks →
    c.headerBuffer.length ≤ 16384 →
    findSub crlfcrlf (c.headerBuffer ++ flattenChunks chunks) = none →
    (∀ ch ∈ chunks, ch.length ≤ 8192) →
    16384 < (c.headerBuffer ++ flattenChunks chunks).length →
    chunks.length + 1 ≤ fuel →
    SpeculativeConn.readAndStripHTTPResponse fuel cap c
      = .error (.spec { Op := "parse", StatusCode := 0 }) := by
  induction chunks with
  | nil =>
    intro fuel c hc hble hterm hsz hbig _
    exfalso
    simp only [flattenChunks, List.foldr_nil, List.append_nil] at hbig
    omega
  | cons ch rest ih =>
    intro fuel c hc hble hterm hsz hbig hfuel
    obtain ⟨f, rfl⟩ : ∃ f, fuel = f + 1 := ⟨fuel - 1, by omega⟩
    have hchlen : ch.length ≤ 8192 := hsz ch (List.mem_cons_self _ _)
    have htake : ch.take 8192 = ch := List.take_of_length_le hchlen
    have hdropc : ch.drop 8192 = [] := List.drop_eq_nil_of_le hchlen
    have hassoc : c.headerBuffer ++ flattenChunks (ch :: rest)
        = (c.headerBuffer ++ ch) ++ flattenChunks rest := by
      simp [flattenChunks, List.append_assoc]
    simp only [SpeculativeConn.readAndStripHTTPResponse, hc, connRead, htake, hdropc,
      eq_self_iff_true, if_true]
    rw [hassoc] at hterm hbig
    have hterm' : findSub crlfcrlf (c.headerBuffer ++ ch) = none :=
      findSub_append_none crlfcrlf (c.headerBuffer ++ ch) (flattenChunks rest) hterm
    rw [hterm']
    by_cases hover : (c.headerBuffer ++ ch).length > 16384
    · rw [if_pos hover]
    · rw [if_neg hover]
      rw [ih f { c with headerBuffer := c.headerBuffer ++ ch, connChunks := rest }
        rfl (by show (c.headerBuffer ++ ch).length ≤ 16384; omega) hterm
        (fun x hx => hsz x (List.mem_cons_of_mem _ hx)) hbig
        (by have hf2 := hfuel; simp only [List.length_cons] at hf2; omega)]
      rfl

/-- C5: when the underlying stream never contains the `\r\n\r\n`
terminator (in reads of at most the 8192-byte temporary buffer) and carries
more than 16384 bytes, the first `Read` returns a `SpeculativeTLSError`
with `Op = "parse"`: header accumulation is bounded to 16 KiB. -/
theorem speculativeRead_header_limit_16k (R : List Nat) (cap : Nat)
    (chunks : List (List Nat))
    (hsz : ∀ ch ∈ chunks, ch.length ≤ 8192)
    (hterm : findSub crlfcrlf (flattenChunks chunks) = none)
    (hbig : 16384 < (flattenChunks chunks).length) :
    SpeculativeConn.read cap (freshReadConn R chunks)
      = .error (.spec { Op := "parse", StatusCode := 0 }) := by
  unfold SpeculativeConn.read
  rw [if_neg (by simp [freshReadConn, NewSpeculativeConn]),
    if_pos (show (freshReadConn R chunks).httpResponseDone = false from rfl),
    readAndStrip_overflow cap chunks (stripFuel (freshReadConn R chunks))
      (freshReadConn R chunks) rfl
      (by simp [freshReadConn, NewSpeculativeConn])
      (by simpa [freshReadConn, NewSpeculativeConn] using hterm) hsz
      (by simpa [freshReadConn, NewSpeculativeConn] using hbig)
      (by simp [stripFuel, freshReadConn, NewSpeculativeConn])]
  rfl

/-- C5 witness: the theorem applied to three 6000-byte chunks containing no
CR byte. -/
theorem speculativeRead_header_limit_16k_witness :
    (∀ ch ∈ overflowChunks, ch.length ≤ 8192)
    ∧ findSub crlfcrlf (flattenChunks overflowChunks) = none
    ∧ 16384 < (flattenChunks overflowChunks).length
    ∧ SpeculativeConn.read 1024 (freshReadConn [] overflowChunks)
        = .error (.spec { Op := "parse", StatusCode := 0 }) := by
  have hflat : flattenChunks overflowChunks = List.replicate 18000 65 := by
    simp only [overflowChunks, flattenChunks, overflowChunk, List.foldr_cons,
      List.foldr_nil, List.append_nil, ← List.replicate_add]
  have h1 : ∀ ch ∈ overflowChunks, ch.length ≤ 8192 := by
    intro ch hch
    simp only [overflowChunks, List.mem_cons, List.not_mem_nil, or_false] at hch
    rcases hch with h | h | h <;>
      · rw [h, overflowChunk, List.length_replicate]
        omega
  have h2 : findSub crlfcrlf (flattenChunks overflowChunks) = none := by
    rw [hflat]
    exact findSub_head_notMem 13 [10, 13, 10] _ (by
      intro hc
      have := List.eq_of_mem_replicate hc
      omega)
  have h3 : 16384 < (flattenChunks overflowChunks).length := by
    rw [hflat, List.length_replicate]
    omega
  exact ⟨h1, h2, h3, speculativeRead_header_limit_16k [] 1024 overflowChunks h1 h2 h3⟩

theorem connRead_some (cap : Nat) (chunks rest : List (List Nat)) (out : List Nat)
    (h : connRead cap chunks = some (out, rest)) :
    out ++ flattenChunks rest = flattenChunks chunks := by
  cases chunks with
  | nil => simp [connRead] at h
  | cons ch r =>
    simp only [connRead, Option.some.injEq, Prod.mk.injEq] at h
    obtain ⟨h1, h2⟩ := h
    by_cases hd : ch.drop cap = []
    · rw [if_pos hd] at h2
      have hlen : ch.length ≤ cap := List.drop_eq_nil_iff.mp hd
      subst h1 h2
      simp [flattenChunks, List.take_of_length_le hlen]
    · rw [if_neg hd] at h2
      subst h1 h2
      simp only [flattenChunks, List.foldr_cons, ← List.append_assoc,
        List.take_append_drop]

theorem connRead_keeps_nonempty (cap : Nat) (chunks rest : List (List Nat))
    (out : List Nat) (h : connRead cap chunks = some (out, rest))
    (hne : ∀ ch ∈ chunks, ch ≠ []) : ∀ ch ∈ rest, ch ≠ [] := by
  cases chunks with
  | nil => simp [connRead] at h
  | cons ch r =>
    simp only [connRead, Option.some.injEq, Prod.mk.injEq] at h
    obtain ⟨h1, h2⟩ := h
    by_cases hd : ch.drop cap = []
    · rw [if_pos hd] at h2
      subst h2
      exact fun x hx => hne x (List.mem_cons_of_mem _ hx)
    · rw [if_neg hd] at h2
      subst h2
      intro x hx
      rcases List.mem_cons.mp hx with h | h
      · rw [h]; exact hd
      · exact hne x (List.mem_cons_of_mem _ h)

theorem read_done_step (cap : Nat) (c : SpeculativeConn)
    (hdone : c.httpResponseDone = true) (out : List Nat) (c' : SpeculativeConn)
    (h : SpeculativeConn.read cap c = .ok (out, c')) :
    out ++ pendingBytes c' = pendingBytes c
    ∧ c'.httpResponseDone = true
    ∧ ((∀ ch ∈ c.connChunks, ch ≠ []) → ∀ ch ∈ c'.connChunks, ch ≠ []) := by
  unfold SpeculativeConn.read at h
  by_cases hrb : c.readBuffer ≠ []
  · rw [if_pos hrb] at h
    simp only [Except.ok.injEq, Prod.mk.injEq] at h
    obtain ⟨h1, h2⟩ := h
    subst h1 h2
    refine ⟨?_, hdone, fun hne => hne⟩
    simp only [pendingBytes, ← List.append_assoc, List.take_append_drop]
  · rw [if_neg hrb, if_neg (by simp [hdone])] at h
    have hrbe : c.readBuffer = [] := by
      by_contra hc
      exact hrb hc
    rcases hcr : connRead cap c.connChunks with _ | pr
    · rw [hcr] at h
      simp at h
    · rw [hcr] at h
      simp only [Except.ok.injEq, Prod.mk.injEq] at h
      obtain ⟨h1, h2⟩ := h
      subst h1 h2
      refine ⟨?_, hdone, fun hne => connRead_keeps_nonempty cap _ _ _ hcr hne⟩
      simp only [pendingBytes, hrbe, List.nil_append]
      exact connRead_some cap _ _ _ hcr

theorem read_done_progress (cap : Nat) (c : SpeculativeConn)
    (hdone : c.httpResponseDone = true) (hcap : 1 ≤ cap)
    (hne : ∀ ch ∈ c.connChunks, ch ≠ []) (hpend : pendingBytes c ≠ []) :
    ∃ out c', SpeculativeConn.read cap c = .ok (out, c') ∧ out ≠ [] := by
  unfold SpeculativeConn.read
  by_cases hrb : c.readBuffer ≠ []
  · rw [if_pos hrb]
    refine ⟨_, _, rfl, ?_⟩
    intro hc
    rcases List.take_eq_nil_iff.mp hc with h | h
    · omega
    · exact hrb h
  · have hrbe : c.readBuffer = [] := by by_contra hc; exact hrb hc
    rw [if_neg hrb, if_neg (by simp [hdone])]
    have hflat : flattenChunks c.connChunks ≠ [] := by
      intro hc
      exact hpend (by simp [pendingBytes, hrbe, hc])
    cases hcc : c.connChunks with
    | nil => exact absurd (by simp [flattenChunks, hcc]) hflat
    | cons ch r =>
      refine ⟨ch.take cap,
        { c with connChunks := if ch.drop cap = [] then r else ch.drop cap :: r },
        rfl, ?_⟩
      intro hc
      rcases List.take_eq_nil_iff.mp hc with h | h
      · omega
      · exact hne ch (by rw [hcc]; exact List.mem_cons_self _ _) h

theorem readMany_drain (caps : List Nat) :
    ∀ (c : SpeculativeConn), c.httpResponseDone = true →
    (∀ ch ∈ c.connChunks, ch ≠ []) →
    (∀ x ∈ caps, 1 ≤ x) →
    (pendingBytes c).length ≤ caps.length →
    flattenChunks (readMany caps c).1 = pendingBytes c
    ∧ pendingBytes (readMany caps c).2 = [] := by
  induction caps with
  | nil =>
    intro c _ _ _ hlen
    have hp : pendingBytes c = [] :=
      List.eq_nil_of_length_eq_zero (by simpa using hlen)
    simp [readMany, flattenChunks, hp]
  | cons cap rest ih =>
    intro c hdone hne hcaps hlen
    by_cases hpend : pendingBytes c = []
    · have hrbe : c.readBuffer = [] := (List.append_eq_nil.mp hpend).1
      have hfl : flattenChunks c.connChunks = [] := (List.append_eq_nil.mp hpend).2
      have hchunks : c.connChunks = [] := by
        cases hcc : c.connChunks with
        | nil => rfl
        | cons ch r =>
          exfalso
          rw [hcc] at hfl
          simp only [flattenChunks, List.foldr_cons] at hfl
          exact hne ch (by rw [hcc]; exact List.mem_cons_self _ _)
            (List.append_eq_nil.mp hfl).1
      have hread : SpeculativeConn.read cap c = .error .eof := by
        unfold SpeculativeConn.read
        rw [if_neg (by simp [hrbe]), if_neg (by simp [hdone]), hchunks]
        rfl
      simp [readMany, hread, flattenChunks, hpend]
    · obtain ⟨out, c', hok, hone⟩ :=
        read_done_progress cap c hdone (hcaps cap (List.mem_cons_self _ _)) hne hpend
      obtain ⟨hcons, hdone', hne'⟩ := read_done_step cap c hdone out c' hok
      have houtlen : 1 ≤ out.length := List.length_pos.mpr hone
      have hlen' : (pendingBytes c').length ≤ rest.length := by
        have hsum : out.length + (pendingBytes c').length = (pendingBytes c).length := by
          rw [← hcons]
          simp
        simp only [List.length_cons] at hlen
        omega
      obtain ⟨ih1, ih2⟩ := ih c' hdone' (hne' hne)
        (fun x hx => hcaps x (List.mem_cons_of_mem _ hx)) hlen'
      refine ⟨?_, ?_⟩
      · simp only [readMany, hok]
        simp only [flattenChunks, List.foldr_cons]
        have : (readMany rest c').1.foldr (· ++ ·) [] = flattenChunks (readMany rest c').1 := rfl
        rw [this, ih1, hcons]
      · simp only [readMany, hok]
        exact ih2

theorem read_strip_200 (R hdr T0 : List Nat) (more : List (List Nat)) (cap : Nat)
    (hlen : (hdr ++ crlfcrlf ++ T0).length ≤ 8192)
    (hterm : findSub crlfcrlf (hdr ++ crlfcrlf ++ T0) = some hdr.length)
    (hparse : parseResponseStatus (hdr ++ crlfcrlf) = some 200)
    (hT0 : T0 ≠ []) :
    SpeculativeConn.read cap (freshReadConn R ((hdr ++ crlfcrlf ++ T0) :: more)) =
      .ok (T0.take cap,
        { freshReadConn R ((hdr ++ crlfcrlf ++ T0) :: more) with
            httpResponseDone := true, readBuffer := T0.drop cap,
            headerBuffer := [], connChunks := more }) := by
  obtain ⟨f, hf⟩ : ∃ f, stripFuel (freshReadConn R ((hdr ++ crlfcrlf ++ T0) :: more))
      = f + 1 := ⟨_, rfl⟩
  unfold SpeculativeConn.read
  rw [if_neg (by simp [freshReadConn, NewSpeculativeConn]),
    if_pos (show (freshReadConn R ((hdr ++ crlfcrlf ++ T0) :: more)).httpResponseDone
      = false from rfl), hf,
    readAndStrip_found f cap _ hdr T0 more rfl rfl hlen hterm, hparse]
  simp only [ne_eq, not_true_eq_false, if_false, if_pos hT0]
  rfl

/-- C10: once the HTTP response is stripped, no byte of the trailing stream
is lost or duplicated. For a well-formed 200 response followed by TLS bytes
`T0` in the same underlying read and further chunks `more`: the first `Read`
returns the first `cap1` bytes of `T0`, and draining with enough subsequent
reads returns, in order, exactly the rest — the concatenation of all reads
equals `T0 ++ flattenChunks more` and nothing remains pending. Moreover any
buffered surplus is returned (from `readBuffer`) before any new read of the
underlying connection, which is left untouched. -/
theorem speculativeRead_stream_conservation (R hdr T0 : List Nat)
    (more : List (List Nat)) (cap1 : Nat) (caps : List Nat)
    (hlen : (hdr ++ crlfcrlf ++ T0).length ≤ 8192)
    (hterm : findSub crlfcrlf (hdr ++ crlfcrlf ++ T0) = some hdr.length)
    (hparse : parseResponseStatus (hdr ++ crlfcrlf) = some 200)
    (hT0 : T0 ≠ [])
    (hmore : ∀ ch ∈ more, ch ≠ [])
    (hcaps : ∀ x ∈ caps, 1 ≤ x)
    (hcapn : (T0.drop cap1).length + (flattenChunks more).length ≤ caps.length) :
    (∃ c1, SpeculativeConn.read cap1 (freshReadConn R ((hdr ++ crlfcrlf ++ T0) :: more))
        = .ok (T0.take cap1, c1)
      ∧ T0.take cap1 ++ flattenChunks (readMany caps c1).1
          = T0 ++ flattenChunks more
      ∧ pendingBytes (readMany caps c1).2 = [])
    ∧ ∀ (c : SpeculativeConn) (cap : Nat), c.readBuffer ≠ [] →
        SpeculativeConn.read cap c
          = .ok (c.readBuffer.take cap, { c with readBuffer := c.readBuffer.drop cap }) := by
  constructor
  · have hdrain := readMany_drain caps
      { freshReadConn R ((hdr ++ crlfcrlf ++ T0) :: more) with
          httpResponseDone := true, readBuffer := T0.drop cap1,
          headerBuffer := [], connChunks := more }
      rfl hmore hcaps (by
        show ((T0.drop cap1) ++ flattenChunks more).length ≤ caps.length
        simpa using hcapn)
    refine ⟨{ freshReadConn R ((hdr ++ crlfcrlf ++ T0) :: more) with
        httpResponseDone := true, readBuffer := T0.drop cap1,
        headerBuffer := [], connChunks := more },
      read_strip_200 R hdr T0 more cap1 hlen hterm hparse hT0, ?_, hdrain.2⟩
    rw [hdrain.1]
    show T0.take cap1 ++ (T0.drop cap1 ++ flattenChunks more) = T0 ++ flattenChunks more
    rw [← List.append_assoc, List.take_append_drop]
  · intro c cap hrb
    unfold SpeculativeConn.read
    rw [if_pos hrb]

/-- C10 witness: the theorem applied to a 200 response followed by 100 TLS
bytes read with a 10-byte buffer, then drained one byte at a time. -/
theorem speculativeRead_stream_conservation_witness :
    ((streamHdr ++ crlfcrlf ++ streamT0).length ≤ 8192)
    ∧ findSub crlfcrlf (streamHdr ++ crlfcrlf ++ streamT0) = some streamHdr.length
    ∧ parseResponseStatus (streamHdr ++ crlfcrlf) = some 200
    ∧ streamT0 ≠ []
    ∧ (∀ ch ∈ streamMore, ch ≠ [])
    ∧ (∀ x ∈ streamCaps, 1 ≤ x)
    ∧ (streamT0.drop 10).length + (flattenChunks streamMore).length ≤ streamCaps.length
    ∧ ((∃ c1, SpeculativeConn.read 10 (freshReadConn [] ((streamHdr ++ crlfcrlf ++ streamT0) :: streamMore))
          = .ok (streamT0.take 10, c1)
        ∧ streamT0.take 10 ++ flattenChunks (readMany streamCaps c1).1
            = streamT0 ++ flattenChunks streamMore
        ∧ pendingBytes (readMany streamCaps c1).2 = [])
      ∧ ∀ (c : SpeculativeConn) (cap : Nat), c.readBuffer ≠ [] →
          SpeculativeConn.read cap c
            = .ok (c.readBuffer.take cap, { c with readBuffer := c.readBuffer.drop cap })) :=
  ⟨by decide, by decide, by decide, by decide, by decide, by decide, by decide,
    speculativeRead_stream_conservation [] streamHdr streamT0 streamMore 10 streamCaps
      (by decide) (by decide) (by decide) (by decide) (by decide) (by decide) (by decide)⟩
